import Mathlib

/-!
Shallow embedding of the numerical core of `pages/core/vibrations.py`
(waveplot): the parameter resolver (`update_inputs`), the oscillator model
(`hermite`, `calc_harmonic_energies`, `harmonic_wf`, `calc_data`), the plot
assembler (`update_plot`) and the data exporter (`download_data`).

Python floats are embedded as real numbers; fallible operations (negative
list indexing, `min`/`max` of a possibly-empty list, dictionary key lookup)
return `Option` / an explicit error constructor, mirroring the Python
exceptions.  Dash's `no_update` sentinel is modelled by a dedicated
constructor (for `calc_data`) or by `none` (for `download_data`).
-/

/-- Speed of light in cm/s: `LIGHT = con.speed_of_light * 100`. -/
def LIGHT : ℝ := 299792458 * 100

/-- The constant the source binds to the name `HBAR`: `HBAR = con.Planck`,
i.e. the (full) Planck constant 6.62607015e-34 J s. -/
def HBAR : ℝ := 6.62607015e-34

/-- Atomic mass unit factor used throughout the source: `1.6605E-27` kg. -/
def AMU : ℝ := 1.6605e-27

/-- Joules per reciprocal centimetre, the conversion constant `1.98630E-23`
used in `calc_data`. -/
def JPERCM : ℝ := 1.98630e-23

/-- Model of `numpy.linspace(start, stop, num)`: `num` evenly spaced points
with first point `start`; in exact arithmetic the last point is `stop`. -/
noncomputable def linspace (start stop : ℝ) (num : ℕ) : List ℝ :=
  (List.range num).map fun (i : ℕ) =>
    start + (stop - start) * (i : ℝ) / ((num : ℝ) - 1)

/-- Model of Python's `round(x, ndigits)` (round-half-to-even on the exact
value). Only its pointwise application matters for the claims below. -/
noncomputable def pyRound (ndigits : ℕ) (x : ℝ) : ℝ :=
  let y := x * 10 ^ ndigits
  let f : ℤ := ⌊y⌋
  let i : ℤ :=
    if y - f < 1 / 2 then f
    else if (1 : ℝ) / 2 < y - f then f + 1
    else if Even f then f else f + 1
  (i : ℝ) / 10 ^ ndigits

/-- Python negative indexing `l[-k]` (for `k ≥ 1`): the `k`-th element from
the end, an `IndexError` (`none`) when the list is shorter than `k`. -/
def pyNeg (l : List ℝ) (k : ℕ) : Option ℝ :=
  if l.length < k then none else l[l.length - k]?

/-- Python `min(l)`: `none` models the `ValueError` on an empty list. -/
def pyMin (l : List ℝ) : Option ℝ :=
  match l with
  | [] => none
  | x :: xs => some (xs.foldl min x)

/-- Python `max(l)`: `none` models the `ValueError` on an empty list. -/
def pyMax (l : List ℝ) : Option ℝ :=
  match l with
  | [] => none
  | x :: xs => some (xs.foldl max x)

/-- `hermite(n, x)` from the source, pointwise on a scalar:
`n = 0` gives `x*0 + 1`, `n = 1` gives `2*x`, and otherwise
`2*x*hermite(n-1, x) - 2*(n-1)*hermite(n-2, x)`. -/
def hermite : ℕ → ℝ → ℝ
  | 0, x => x * 0 + 1
  | 1, x => 2 * x
  | (m + 2), x => 2 * x * hermite (m + 1) x - 2 * (m + 1 : ℕ) * hermite m x

/-- Result record of `calc_harmonic_energies` (the Python function returns
the tuple `(state_E, harmonic_E, displacement, zpd)`). -/
structure HarmonicData where
  state_E : List ℝ
  harmonic_E : List ℝ
  displacement : List ℝ
  zpd : ℝ

/-- `calc_harmonic_energies(k, m, max_n)` from the source:
`omega = sqrt(k/m)/(2π)`, state energies `HBAR*omega*(n+0.5)` for
`n = 0..max_n`, the classical potential `0.5*k*x²` on a 100-point grid over
`±1.2*max_x` with `max_x = sqrt((max_n+0.5)*2*HBAR*omega/k)`, and the
zero-point displacement `sqrt(HBAR*omega/k)`. -/
noncomputable def calc_harmonic_energies (k m : ℝ) (max_n : ℕ) : HarmonicData :=
  let omega := Real.sqrt (k / m) / (2 * Real.pi)
  let state_E := (List.range (max_n + 1)).map fun (n : ℕ) =>
    HBAR * omega * ((n : ℝ) + 0.5)
  let max_x := Real.sqrt ((max_n + 0.5) * 2 * HBAR * omega / k)
  let displacement := linspace (-(max_x * 1.2)) (max_x * 1.2) 100
  let harmonic_E := displacement.map fun x => 0.5 * k * x ^ 2
  let zpd := Real.sqrt (HBAR * omega / k)
  { state_E := state_E, harmonic_E := harmonic_E,
    displacement := displacement, zpd := zpd }

/-- `calculate_mu(w, k)` from the source: `mu = k / w**2; mu /= 1.6605E-27`. -/
noncomputable def calculate_mu (w k : ℝ) : ℝ :=
  (k / w ^ 2) / AMU

/-- `calculate_k(w, mu)` from the source: `mu *= 1.6605E-27; k = mu * w**2`. -/
noncomputable def calculate_k (w mu : ℝ) : ℝ :=
  (mu * AMU) * w ^ 2

/-- `harmonic_wf(n, x, m, omega)` from the source:
`beta = sqrt(m*omega/HBAR)`, normalisation
`N = 1/sqrt(2^n n!) * ((m*omega)/(π*HBAR))^0.25`, and
`wf = hermite(n, beta*x) * N * exp(-beta²x²/2)` pointwise over `x`. -/
noncomputable def harmonic_wf (n : ℕ) (x : List ℝ) (m omega : ℝ) : List ℝ :=
  let beta := Real.sqrt (m * omega / HBAR)
  let N := 1 / Real.sqrt (2 ^ n * (n.factorial : ℝ)) *
    ((m * omega) / (Real.pi * HBAR)) ^ (0.25 : ℝ)
  x.map fun xi => hermite n (beta * xi) * N * Real.exp (-(beta ^ 2) * xi ^ 2 * 0.5)

/-- The `var_store` dictionary passed from `update_inputs` to `calc_data`.
Each field is `none` when the key is absent from the dictionary, and
`some none` when the key is present with the Python value `None`.  The
store's initial value `{}` is `⟨none, none, none, none⟩`; the invalid branch
of `update_inputs` produces `{'fc': None, 'mu': None}`; the valid branch
produces all four keys with float values. -/
structure VarsDict where
  fc : Option (Option ℝ)
  mu : Option (Option ℝ)
  ang_wn : Option (Option ℝ)
  lin_wn : Option (Option ℝ)

/-- The list `vars.values()`: the values of the keys actually present. -/
def VarsDict.values (d : VarsDict) : List (Option ℝ) :=
  [d.fc, d.mu, d.ang_wn, d.lin_wn].filterMap id

/-- Result record of `update_inputs`: the store dictionary, the four rounded
display values, and the four `disabled` flags, in the source's return
order. -/
structure UpdateResult where
  store : VarsDict
  lin_wn_out : ℝ
  ang_wn_out : ℝ
  fc_out : ℝ
  mu_out : ℝ
  lin_wn_disable : Bool
  ang_wn_disable : Bool
  fc_disable : Bool
  mu_disable : Bool

/-- `update_inputs` from the source.  Inputs are the four field values and
the four `fixed` checkboxes.  If the number of fixed flags is not 2, or both
wavenumber flags are set, the store is `{'fc': None, 'mu': None}` and the
raw inputs are only rounded; otherwise the missing parameters are derived
and the store holds `fc`, `mu` (converted to kg), `ang_wn` and `lin_wn`. -/
noncomputable def update_inputs (lin_wn ang_wn fc mu : ℝ)
    (lin_wn_fix ang_wn_fix fc_fix mu_fix : Bool) : UpdateResult :=
  let lin_wn_disable := !lin_wn_fix
  let ang_wn_disable := !ang_wn_fix
  let fc_disable := !fc_fix
  let mu_disable := !mu_fix
  if ang_wn_fix.toNat + lin_wn_fix.toNat + fc_fix.toNat + mu_fix.toNat ≠ 2
      ∨ (ang_wn_fix = true ∧ lin_wn_fix = true) then
    { store := ⟨some none, some none, none, none⟩
      lin_wn_out := pyRound 2 lin_wn
      ang_wn_out := pyRound 2 ang_wn
      fc_out := pyRound 2 fc
      mu_out := pyRound 4 mu
      lin_wn_disable := lin_wn_disable
      ang_wn_disable := ang_wn_disable
      fc_disable := fc_disable
      mu_disable := mu_disable }
  else
    let r : ℝ × ℝ × ℝ × ℝ :=
      if ang_wn_fix && !lin_wn_fix then
        let omega := ang_wn * LIGHT
        let lin_wn := ang_wn / (2 * Real.pi)
        if fc_fix && !mu_fix then (lin_wn, ang_wn, fc, calculate_mu omega fc)
        else if !fc_fix && mu_fix then (lin_wn, ang_wn, calculate_k omega mu, mu)
        else (lin_wn, ang_wn, fc, mu)
      else if lin_wn_fix && !ang_wn_fix then
        let omega := lin_wn * 2 * Real.pi * LIGHT
        let ang_wn := lin_wn * 2 * Real.pi
        if fc_fix && !mu_fix then (lin_wn, ang_wn, fc, calculate_mu omega fc)
        else if !fc_fix && mu_fix then (lin_wn, ang_wn, calculate_k omega mu, mu)
        else (lin_wn, ang_wn, fc, mu)
      else if !ang_wn_fix && !lin_wn_fix then
        let ang_wn := Real.sqrt (fc / (mu * AMU)) / LIGHT
        (ang_wn / (2 * Real.pi), ang_wn, fc, mu)
      else (lin_wn, ang_wn, fc, mu)
    { store := ⟨some (some r.2.2.1), some (some (r.2.2.2 * AMU)),
                some (some r.2.1), some (some r.1)⟩
      lin_wn_out := pyRound 2 r.1
      ang_wn_out := pyRound 2 r.2.1
      fc_out := pyRound 2 r.2.2.1
      mu_out := pyRound 4 r.2.2.2
      lin_wn_disable := lin_wn_disable
      ang_wn_disable := ang_wn_disable
      fc_disable := fc_disable
      mu_disable := mu_disable }

/-- The data dictionary built by `calc_data` and consumed by `update_plot`
and `download_data`: keys `'x'`, `'wf'`, `'states'`, `'potential'`. -/
structure VibData where
  x : List ℝ
  wf : List (List ℝ)
  states : List ℝ
  potential : List ℝ

/-- Outcome of `calc_data`: the `no_update` sentinel, a raised `KeyError`
(missing dictionary key), or the computed data dictionary. -/
inductive CalcResult where
  | noUpdate
  | keyError
  | data (d : VibData)

/-- The data dictionary `calc_data` builds once `fc`, `mu` and `ang_wn` are
available: `x` is the displacement times `10E10`, `wf` the wavefunctions
for `n = 0..max_n` at `omega = ang_wn*LIGHT`, and `states`/`potential` the
energies divided by `1.98630E-23`. -/
noncomputable def calcDataCore (fc mu ang_wn : ℝ) (max_n : ℕ) : VibData :=
  let hd := calc_harmonic_energies fc mu max_n
  { x := hd.displacement.map fun v => v * 10e10
    wf := (List.range (max_n + 1)).map fun n =>
      harmonic_wf n hd.displacement mu (ang_wn * LIGHT)
    states := hd.state_E.map fun e => e / JPERCM
    potential := hd.harmonic_E.map fun e => e / JPERCM }

/-- `calc_data(vars, max_n)` from the source: returns `no_update` when any
present dictionary value is `None`, substitutes `5` for a missing `max_n`,
and otherwise looks up `'fc'`, `'mu'` and `'ang_wn'` (a `KeyError` when a
key is absent, e.g. for the store's initial value `{}`). -/
noncomputable def calc_data (vars : VarsDict) (max_n? : Option ℕ) : CalcResult :=
  if vars.values.any Option.isNone then .noUpdate
  else
    let max_n := max_n?.getD 5
    match vars.fc, vars.mu, vars.ang_wn with
    | some (some fc), some (some mu), some (some ang_wn) =>
        .data (calcDataCore fc mu ang_wn max_n)
    | _, _, _ => .keyError

/-- A plot trace: its `x` list and its `y` list (styling is ignored). -/
def Trace : Type := List ℝ × List ℝ

/-- The figure patch built by `update_plot`: the trace list and the
selected y-axis range `(lowen, upen)`. -/
structure Fig where
  traces : List Trace
  yrange : ℝ × ℝ

/-- `update_plot(data)` from the source: the potential trace, one flat
trace per state energy (spanning `min(x)`..`max(x)`), one trace per
wavefunction (scaled by 0.01 and offset by its state energy), and the
y-range `[states[0] - (states[-1]-states[-2])/2, 2*states[-1]-states[-2]]`.
`none` models the exceptions Python would raise (`min`/`max` of an empty
grid, or indexing `states[-1]`/`states[-2]`/`states[0]` out of bounds). -/
noncomputable def update_plot (data : VibData) : Option Fig :=
  let potTrace : Trace := (data.x, data.potential)
  let sts := data.states.map fun da => [da, da]
  match pyMin data.x, pyMax data.x with
  | some mn, some mx =>
    let stTraces : List Trace := sts.map fun st => ([mn, mx], st)
    let wfTraces : List Trace := (data.wf.zip sts).map fun p =>
      (data.x, p.1.map fun v => v * 0.01 + p.2.getD 0 0)
    match pyNeg data.states 1, pyNeg data.states 2, data.states[0]? with
    | some last, some prev, some e0 =>
        some { traces := potTrace :: stTraces ++ wfTraces
               yrange := (e0 - (last - prev) / 2, 2 * last - prev) }
    | _, _, _ => none
  | _, _ => none

/-- The export payload of `download_data`: the state-energy lines, the
displacement/potential table (each displacement written as `di * 10E10`),
the displacement/wavefunction table (rows truncated by `zip` as in Python),
and the filename.  The numeric values are kept exactly; the `%.6f`/`%.8f`
string formatting is not modelled. -/
structure ExportFile where
  stateLines : List ℝ
  potTable : List (ℝ × ℝ)
  wfTable : List (ℝ × List ℝ)
  filename : String

/-- `download_data(n_clicks, data)` from the source: `no_update` (`none`)
when the data dictionary is empty, otherwise the export payload with the
fixed filename `waveplot_harmonic_data.dat`. -/
noncomputable def download_data (_nc : ℕ) (data : Option VibData) : Option ExportFile :=
  match data with
  | none => none
  | some d =>
      some { stateLines := d.states
             potTable := (d.x.zip d.potential).map fun p => (p.1 * 10e10, p.2)
             wfTable := (d.x.zip d.wf).map fun p => (p.1 * 10e10, p.2)
             filename := "waveplot_harmonic_data.dat" }

/-- The reduced Planck constant h/(2π).  This is NOT a constant of the
source: it is what the specification's claim asserts the code's `HBAR`
value to be, written down for comparison against the source's binding
`HBAR = con.Planck`. -/
noncomputable def reducedPlanck : ℝ := HBAR / (2 * Real.pi)

/-! ## Helper lemmas -/

lemma state_E_def (k m : ℝ) (N : ℕ) :
    (calc_harmonic_energies k m N).state_E =
      (List.range (N + 1)).map fun (n : ℕ) =>
        HBAR * (Real.sqrt (k / m) / (2 * Real.pi)) * ((n : ℝ) + 0.5) := rfl

lemma displacement_def (k m : ℝ) (N : ℕ) :
    (calc_harmonic_energies k m N).displacement =
      linspace
        (-(Real.sqrt (((N : ℝ) + 0.5) * 2 * HBAR *
            (Real.sqrt (k / m) / (2 * Real.pi)) / k) * 1.2))
        (Real.sqrt (((N : ℝ) + 0.5) * 2 * HBAR *
            (Real.sqrt (k / m) / (2 * Real.pi)) / k) * 1.2) 100 := rfl

lemma getD_range_map (f : ℕ → ℝ) (N n : ℕ) (h : n < N) :
    ((List.range N).map f).getD n 0 = f n := by
  rw [List.getD_eq_getElem _ _ (by simpa using h)]
  simp

lemma pyNeg_eq (l : List ℝ) (k : ℕ) (h1 : 1 ≤ k) (h2 : k ≤ l.length) :
    pyNeg l k = some (l.getD (l.length - k) 0) := by
  unfold pyNeg
  rw [if_neg (by omega)]
  rw [List.getElem?_eq_getElem (by omega), List.getD_eq_getElem _ _ (by omega)]

lemma getD_map_at (f : ℝ → ℝ) (l : List ℝ) (n : ℕ) (h : n < l.length) :
    (l.map f).getD n 0 = f (l.getD n 0) := by
  rw [List.getD_eq_getElem _ _ (by simpa using h), List.getD_eq_getElem _ _ h,
    List.getElem_map]

lemma linspace_head (a b : ℝ) (n : ℕ) (hn : 0 < n) :
    (linspace a b n).getD 0 0 = a := by
  unfold linspace
  rw [getD_range_map _ _ _ hn]
  push_cast
  ring

lemma zip_pair_map_fst {β : Type} (c : ℝ) :
    ∀ (l₁ : List ℝ) (l₂ : List β),
      ((l₁.zip l₂).map fun p => (p.1 * c, p.2)).map Prod.fst =
        (l₁.take l₂.length).map fun v => v * c
  | [], _ => by simp
  | _ :: _, [] => by simp
  | a :: l₁, b :: l₂ => by simpa using zip_pair_map_fst c l₁ l₂

/-! ## Claim theorems -/

/-- C5: the source's `hermite` satisfies `hermite(0,x) = 1`,
`hermite(1,x) = 2x`, `hermite(2,x) = 4x² - 2`, and for every `n ≥ 2` the
recursion `hermite(n,x) = 2x·hermite(n-1,x) - 2(n-1)·hermite(n-2,x)`. -/
theorem C5_hermite_base_and_recursion (n : ℕ) (x : ℝ) (hn : 2 ≤ n) :
    hermite 0 x = 1 ∧ hermite 1 x = 2 * x ∧ hermite 2 x = 4 * x ^ 2 - 2 ∧
    hermite n x =
      2 * x * hermite (n - 1) x - 2 * ((n - 1 : ℕ) : ℝ) * hermite (n - 2) x := by
  refine ⟨by simp [hermite], rfl, ?_, ?_⟩
  · show 2 * x * hermite 1 x - 2 * ((0 + 1 : ℕ) : ℝ) * hermite 0 x = _
    simp [hermite]
    ring
  · obtain ⟨m, rfl⟩ : ∃ m, n = m + 2 := ⟨n - 2, by omega⟩
    show 2 * x * hermite (m + 1) x - 2 * ((m + 1 : ℕ) : ℝ) * hermite m x = _
    have h1 : m + 2 - 1 = m + 1 := by omega
    have h2 : m + 2 - 2 = m := by omega
    rw [h1, h2]

/-- Witness for C5 at `n = 2`, `x = 1`. -/
theorem C5_witness :
    2 ≤ 2 ∧
    (hermite 0 (1 : ℝ) = 1 ∧ hermite 1 (1 : ℝ) = 2 * 1 ∧
     hermite 2 (1 : ℝ) = 4 * 1 ^ 2 - 2 ∧
     hermite 2 (1 : ℝ) =
       2 * 1 * hermite (2 - 1) (1 : ℝ) -
         2 * ((2 - 1 : ℕ) : ℝ) * hermite (2 - 2) (1 : ℝ)) :=
  ⟨by norm_num, C5_hermite_base_and_recursion 2 1 (by norm_num)⟩

/-- C6: for nonzero angular frequency the derivation functions round-trip:
`calculate_k(w, calculate_mu(w, k)) = k` and
`calculate_mu(w, calculate_k(w, mu)) = mu`; consequently re-deriving the
angular frequency as `sqrt(k / (mu_kg))` from the derived pair reproduces
`w` exactly (for `w, k > 0`). -/
theorem C6_resolver_roundtrip (w k mu : ℝ) (hw : w ≠ 0) :
    calculate_k w (calculate_mu w k) = k ∧
    calculate_mu w (calculate_k w mu) = mu ∧
    (0 < w → 0 < k → Real.sqrt (k / (calculate_mu w k * AMU)) = w) := by
  have hA : (AMU : ℝ) ≠ 0 := by unfold AMU; norm_num
  refine ⟨?_, ?_, ?_⟩
  · unfold calculate_k calculate_mu
    field_simp
    ring
  · unfold calculate_k calculate_mu
    field_simp
  · intro hw' hk
    unfold calculate_mu
    have h1 : k / w ^ 2 / AMU * AMU = k / w ^ 2 := by
      field_simp
      ring
    rw [h1]
    have h2 : k / (k / w ^ 2) = w ^ 2 := by
      field_simp
    rw [h2, Real.sqrt_sq hw'.le]

/-- Witness for C6 at `w = 1`, `k = 4`, `mu = 3`. -/
theorem C6_witness :
    (1 : ℝ) ≠ 0 ∧
    (calculate_k 1 (calculate_mu 1 4) = 4 ∧
     calculate_mu 1 (calculate_k 1 3) = 3 ∧
     ((0 : ℝ) < 1 → (0 : ℝ) < 4 →
       Real.sqrt (4 / (calculate_mu 1 4 * AMU)) = 1)) :=
  ⟨by norm_num, C6_resolver_roundtrip 1 4 3 (by norm_num)⟩

/-- C8: for every click count, `download_data` with an empty data store
returns the `no_update` signal and no file; with a dataset present it
returns a payload whose filename is `waveplot_harmonic_data.dat`. -/
theorem C8_download_requires_dataset (nc : ℕ) :
    download_data nc none = none ∧
    ∀ d : VibData, ∃ ef, download_data nc (some d) = some ef ∧
      ef.filename = "waveplot_harmonic_data.dat" :=
  ⟨rfl, fun _ => ⟨_, rfl, rfl⟩⟩

/-- C10: for the store's initial value `{}` (all keys absent), the
`None in vars.values()` guard of `calc_data` does not fire, and the lookup
of the missing key `'fc'` raises instead of returning the no-op signal. -/
theorem C10_empty_store_key_error (mn : Option ℕ) :
    calc_data ⟨none, none, none, none⟩ mn = CalcResult.keyError ∧
    calc_data ⟨none, none, none, none⟩ mn ≠ CalcResult.noUpdate := by
  constructor
  · rfl
  · intro h
    exact CalcResult.noConfusion h

/-- C4: for positive force constant and reduced mass the state energies of
`calc_harmonic_energies` are strictly increasing, with the constant spacing
`HBAR * omega` (`omega = sqrt(k/m)/(2π)`) between consecutive states. -/
theorem C4_energies_increasing_constant_spacing (k m : ℝ) (N : ℕ)
    (hk : 0 < k) (hm : 0 < m) (_hN : 1 ≤ N) (n : ℕ) (hn : n < N) :
    (calc_harmonic_energies k m N).state_E.getD n 0 <
      (calc_harmonic_energies k m N).state_E.getD (n + 1) 0 ∧
    (calc_harmonic_energies k m N).state_E.getD (n + 1) 0 -
      (calc_harmonic_energies k m N).state_E.getD n 0 =
      HBAR * (Real.sqrt (k / m) / (2 * Real.pi)) := by
  rw [state_E_def, getD_range_map _ _ _ (by omega : n < N + 1),
    getD_range_map _ _ _ (by omega : n + 1 < N + 1)]
  have homega : 0 < Real.sqrt (k / m) / (2 * Real.pi) :=
    div_pos (Real.sqrt_pos.mpr (div_pos hk hm)) (by positivity)
  have hH : (0 : ℝ) < HBAR := by unfold HBAR; norm_num
  constructor
  · have hlt : (n : ℝ) + 0.5 < ((n + 1 : ℕ) : ℝ) + 0.5 := by push_cast; linarith
    exact mul_lt_mul_of_pos_left hlt (by positivity)
  · push_cast
    ring

/-- Witness for C4 at `k = 1`, `m = 1`, `N = 1`, `n = 0`. -/
theorem C4_witness :
    (0 : ℝ) < 1 ∧ (0 : ℝ) < 1 ∧ 1 ≤ 1 ∧ 0 < 1 ∧
    ((calc_harmonic_energies 1 1 1).state_E.getD 0 0 <
       (calc_harmonic_energies 1 1 1).state_E.getD (0 + 1) 0 ∧
     (calc_harmonic_energies 1 1 1).state_E.getD (0 + 1) 0 -
       (calc_harmonic_energies 1 1 1).state_E.getD 0 0 =
       HBAR * (Real.sqrt (1 / 1) / (2 * Real.pi))) :=
  ⟨by norm_num, by norm_num, le_refl 1, by norm_num,
    C4_energies_increasing_constant_spacing 1 1 1 (by norm_num) (by norm_num)
      (le_refl 1) 0 (by norm_num)⟩

/-- C1: whenever the number of fixed flags is not exactly 2, or both
wavenumber flags are fixed, `update_inputs` stores
`{'fc': None, 'mu': None}` (derived quantities undefined) and returns the
four raw inputs unchanged apart from display rounding, for all input
values. -/
theorem C1_invalid_flags_clear_derived (lin_wn ang_wn fc mu : ℝ)
    (lf af ff mf : Bool)
    (h : af.toNat + lf.toNat + ff.toNat + mf.toNat ≠ 2 ∨
      (af = true ∧ lf = true)) :
    (update_inputs lin_wn ang_wn fc mu lf af ff mf).store =
      ⟨some none, some none, none, none⟩ ∧
    (update_inputs lin_wn ang_wn fc mu lf af ff mf).lin_wn_out =
      pyRound 2 lin_wn ∧
    (update_inputs lin_wn ang_wn fc mu lf af ff mf).ang_wn_out =
      pyRound 2 ang_wn ∧
    (update_inputs lin_wn ang_wn fc mu lf af ff mf).fc_out = pyRound 2 fc ∧
    (update_inputs lin_wn ang_wn fc mu lf af ff mf).mu_out = pyRound 4 mu := by
  simp only [update_inputs]
  rw [if_pos h]
  exact ⟨rfl, rfl, rfl, rfl, rfl⟩

/-- Witness for C1: three flags fixed (invalid), inputs 1, 2, 3, 4. -/
theorem C1_witness :
    ((true : Bool).toNat + (true : Bool).toNat + (true : Bool).toNat +
        (false : Bool).toNat ≠ 2 ∨
      ((true : Bool) = true ∧ (true : Bool) = true)) ∧
    ((update_inputs 1 2 3 4 true true true false).store =
        ⟨some none, some none, none, none⟩ ∧
     (update_inputs 1 2 3 4 true true true false).lin_wn_out = pyRound 2 1 ∧
     (update_inputs 1 2 3 4 true true true false).ang_wn_out = pyRound 2 2 ∧
     (update_inputs 1 2 3 4 true true true false).fc_out = pyRound 2 3 ∧
     (update_inputs 1 2 3 4 true true true false).mu_out = pyRound 4 4) :=
  ⟨by decide, C1_invalid_flags_clear_derived 1 2 3 4 true true true false
    (by decide)⟩

/-- C7: for a dataset with at least two state energies (and a nonempty
grid, as every computed dataset has), `update_plot` selects the y-range
`[E₀ - (E_N - E_{N-1})/2, 2·E_N - E_{N-1}]` from the first and last two
state energies. -/
theorem C7_yaxis_range (data : VibData) (h2 : 2 ≤ data.states.length)
    (hx : data.x ≠ []) :
    ∃ fig, update_plot data = some fig ∧
      fig.yrange =
        (data.states.getD 0 0 -
           (data.states.getD (data.states.length - 1) 0 -
            data.states.getD (data.states.length - 2) 0) / 2,
         2 * data.states.getD (data.states.length - 1) 0 -
           data.states.getD (data.states.length - 2) 0) := by
  obtain ⟨a, l, hxe⟩ : ∃ a l, data.x = a :: l := by
    cases hc : data.x with
    | nil => exact absurd hc hx
    | cons a l => exact ⟨a, l, rfl⟩
  have hmn : pyMin data.x = some (l.foldl min a) := by rw [hxe]; rfl
  have hmx : pyMax data.x = some (l.foldl max a) := by rw [hxe]; rfl
  have h1 : pyNeg data.states 1 =
      some (data.states.getD (data.states.length - 1) 0) :=
    pyNeg_eq _ _ (by omega) (by omega)
  have hp : pyNeg data.states 2 =
      some (data.states.getD (data.states.length - 2) 0) :=
    pyNeg_eq _ _ (by omega) (by omega)
  have h0 : data.states[0]? = some (data.states.getD 0 0) := by
    rw [List.getElem?_eq_getElem (by omega), List.getD_eq_getElem _ _ (by omega)]
  unfold update_plot
  rw [hmn, hmx, h1, hp, h0]
  exact ⟨_, rfl, rfl⟩

/-- Concrete data used to instantiate hypotheses of the plot claims. -/
def sampleData : VibData := ⟨[0], [], [0, 1], []⟩

/-- Witness for C7 on a two-state dataset. -/
theorem C7_witness :
    2 ≤ sampleData.states.length ∧ sampleData.x ≠ [] ∧
    ∃ fig, update_plot sampleData = some fig ∧
      fig.yrange =
        (sampleData.states.getD 0 0 -
           (sampleData.states.getD (sampleData.states.length - 1) 0 -
            sampleData.states.getD (sampleData.states.length - 2) 0) / 2,
         2 * sampleData.states.getD (sampleData.states.length - 1) 0 -
           sampleData.states.getD (sampleData.states.length - 2) 0) :=
  ⟨by simp [sampleData], by simp [sampleData],
    C7_yaxis_range sampleData (by simp [sampleData]) (by simp [sampleData])⟩

/-- C9: a valid parameter store with `max_n = 0` makes `calc_data` produce
a dataset with exactly one state energy, and `update_plot` on any dataset
with a single state energy fails (the `states[-2]` access is out of
bounds), so the error is reachable from the public interface. -/
theorem C9_single_state_plot_fails (fc mu ang lin : ℝ) :
    calc_data ⟨some (some fc), some (some mu), some (some ang), some (some lin)⟩
        (some 0) = CalcResult.data (calcDataCore fc mu ang 0) ∧
    (calcDataCore fc mu ang 0).states.length = 1 ∧
    ∀ d : VibData, d.states.length = 1 → update_plot d = none := by
  refine ⟨rfl, ?_, ?_⟩
  · show ((calc_harmonic_energies fc mu 0).state_E.map _).length = 1
    rw [List.length_map, state_E_def, List.length_map, List.length_range]
  · intro d hd
    unfold update_plot
    by_cases hx : d.x = []
    · rw [hx]
      rfl
    · obtain ⟨a, l, hc⟩ : ∃ a l, d.x = a :: l := by
        cases he : d.x with
        | nil => exact absurd he hx
        | cons a l => exact ⟨a, l, rfl⟩
      have hmn : pyMin d.x = some (l.foldl min a) := by rw [hc]; rfl
      have hmx : pyMax d.x = some (l.foldl max a) := by rw [hc]; rfl
      have h1 : pyNeg d.states 1 =
          some (d.states.getD (d.states.length - 1) 0) :=
        pyNeg_eq _ _ (by omega) (by omega)
      have h2 : pyNeg d.states 2 = none := by
        unfold pyNeg
        rw [if_pos (by omega)]
      have h0 : d.states[0]? = some (d.states.getD 0 0) := by
        rw [List.getElem?_eq_getElem (by omega),
          List.getD_eq_getElem _ _ (by omega)]
      rw [hmn, hmx, h1, h2, h0]

/-- Witness for C9: the one-state dataset `x = [0]`, `states = [5]`. -/
theorem C9_witness :
    calc_data ⟨some (some 1), some (some 1), some (some 1), some (some 1)⟩
        (some 0) = CalcResult.data (calcDataCore 1 1 1 0) ∧
    (calcDataCore 1 1 1 0).states.length = 1 ∧
    ((VibData.mk [0] [] [5] []).states.length = 1 ∧
      update_plot (VibData.mk [0] [] [5] []) = none) := by
  have h := C9_single_state_plot_fails 1 1 1 1
  exact ⟨h.1, h.2.1, by simp, h.2.2 _ (by simp)⟩

lemma harmonic_E_def (k m : ℝ) (N : ℕ) :
    (calc_harmonic_energies k m N).harmonic_E =
      (calc_harmonic_energies k m N).displacement.map
        fun x => 0.5 * k * x ^ 2 := rfl

lemma potTable_cols (fc mu ang : ℝ) (maxn nc : ℕ) :
    (download_data nc (some (calcDataCore fc mu ang maxn))).map
        (fun ef => ef.potTable.map Prod.fst) =
      some ((calc_harmonic_energies fc mu maxn).displacement.map
        fun v => v * 10e10 * 10e10) := by
  have hq : (download_data nc (some (calcDataCore fc mu ang maxn))).map
      (fun ef => ef.potTable.map Prod.fst) =
      some ((((calcDataCore fc mu ang maxn).x.zip
        (calcDataCore fc mu ang maxn).potential).map
          fun p => (p.1 * 10e10, p.2)).map Prod.fst) := rfl
  rw [hq, zip_pair_map_fst, Option.some.injEq]
  have hx : (calcDataCore fc mu ang maxn).x =
      (calc_harmonic_energies fc mu maxn).displacement.map
        fun v => v * 10e10 := rfl
  have hpot : (calcDataCore fc mu ang maxn).potential =
      ((calc_harmonic_energies fc mu maxn).displacement.map
        fun x => 0.5 * fc * x ^ 2).map fun e => e / JPERCM := rfl
  rw [hx, hpot, List.length_map, List.length_map,
    List.take_of_length_le (le_of_eq (List.length_map _ _)), List.map_map]
  rfl

lemma wfTable_cols (fc mu ang : ℝ) (maxn nc : ℕ) :
    (download_data nc (some (calcDataCore fc mu ang maxn))).map
        (fun ef => ef.wfTable.map Prod.fst) =
      some (((calc_harmonic_energies fc mu maxn).displacement.take
        (maxn + 1)).map fun v => v * 10e10 * 10e10) := by
  have hq : (download_data nc (some (calcDataCore fc mu ang maxn))).map
      (fun ef => ef.wfTable.map Prod.fst) =
      some ((((calcDataCore fc mu ang maxn).x.zip
        (calcDataCore fc mu ang maxn).wf).map
          fun p => (p.1 * 10e10, p.2)).map Prod.fst) := rfl
  rw [hq, zip_pair_map_fst, Option.some.injEq]
  have hx : (calcDataCore fc mu ang maxn).x =
      (calc_harmonic_energies fc mu maxn).displacement.map
        fun v => v * 10e10 := rfl
  have hwf : (calcDataCore fc mu ang maxn).wf =
      (List.range (maxn + 1)).map fun n =>
        harmonic_wf n (calc_harmonic_energies fc mu maxn).displacement mu
          (ang * LIGHT) := rfl
  rw [hx, hwf, List.length_map, List.length_range, ← List.map_take,
    List.map_map]
  rfl

/-- C2 counterexample: at `fc = mu = ang_wn = 1`, `max_n = 0`, the first
column of the exported displacement/potential table is NOT the displacement
in metres times `10E10` (i.e. 10¹¹): the factor is applied a second time at
export on top of the one already applied by `calc_data`. -/
theorem C2_counterexample :
    (download_data 1 (some (calcDataCore 1 1 1 0))).map
        (fun ef => ef.potTable.map Prod.fst) ≠
      some ((calc_harmonic_energies 1 1 0).displacement.map
        fun v => v * 10e10) := by
  intro hc
  rw [potTable_cols 1 1 1 0 1, Option.some.injEq] at hc
  have h0 := congrArg (fun l => l.getD 0 0) hc
  simp only at h0
  have hlen : (calc_harmonic_energies 1 1 0).displacement.length = 100 := by
    rw [displacement_def]
    unfold linspace
    rw [List.length_map, List.length_range]
  rw [getD_map_at _ _ _ (by omega), getD_map_at _ _ _ (by omega)] at h0
  have hd0 : (calc_harmonic_energies 1 1 0).displacement.getD 0 0 < 0 := by
    rw [displacement_def, linspace_head _ _ _ (by norm_num)]
    have hs : 0 < Real.sqrt ((((0 : ℕ) : ℝ) + 0.5) * 2 * HBAR *
        (Real.sqrt ((1 : ℝ) / 1) / (2 * Real.pi)) / 1) := by
      apply Real.sqrt_pos.mpr
      rw [show ((1 : ℝ) / 1) = 1 by norm_num, Real.sqrt_one]
      unfold HBAR
      positivity
    nlinarith
  nlinarith [h0, hd0]

/-- C2 amended: in the export produced by `download_data` from a dataset
computed by `calc_data`, every displacement value written in both tables is
the displacement in metres multiplied by `10E10` TWICE (once in
`calc_data`'s packaging of `'x'`, once again at export), i.e. by 10²², not
10¹¹; the wavefunction table moreover only contains the first
`max_n + 1` displacements because `zip` truncates. -/
theorem C2_amended_export_displacement (fc mu ang lin : ℝ) (maxn nc : ℕ) :
    calc_data ⟨some (some fc), some (some mu), some (some ang),
        some (some lin)⟩ (some maxn) =
      CalcResult.data (calcDataCore fc mu ang maxn) ∧
    (download_data nc (some (calcDataCore fc mu ang maxn))).map
        (fun ef => ef.potTable.map Prod.fst) =
      some ((calc_harmonic_energies fc mu maxn).displacement.map
        fun v => v * 10e10 * 10e10) ∧
    (download_data nc (some (calcDataCore fc mu ang maxn))).map
        (fun ef => ef.wfTable.map Prod.fst) =
      some (((calc_harmonic_energies fc mu maxn).displacement.take
        (maxn + 1)).map fun v => v * 10e10 * 10e10) :=
  ⟨rfl, potTable_cols fc mu ang maxn nc, wfTable_cols fc mu ang maxn nc⟩

/-- C3 counterexample: at `k = m = 1`, `max_n = 0` the single state energy
returned by `calc_harmonic_energies` is not `ħ·ω·(0 + 1/2)` with `ħ` the
reduced Planck constant h/(2π): the code's `HBAR` is the full Planck
constant. -/
theorem C3_counterexample :
    (calc_harmonic_energies 1 1 0).state_E ≠
      [reducedPlanck * (Real.sqrt ((1 : ℝ) / 1) / (2 * Real.pi)) *
        (0 + 0.5)] := by
  intro h
  have h0 := congrArg (fun l => l.getD 0 0) h
  simp only [List.getD_cons_zero] at h0
  rw [state_E_def, getD_range_map _ _ _ (by norm_num : 0 < 0 + 1)] at h0
  rw [show ((1 : ℝ) / 1) = 1 by norm_num, Real.sqrt_one] at h0
  unfold reducedPlanck HBAR at h0
  push_cast at h0
  have hpi := Real.pi_gt_three
  field_simp [Real.pi_ne_zero] at h0
  nlinarith [hpi, Real.pi_pos]

/-- C3 amended: `calc_harmonic_energies` returns
`E_n = HBAR·ω·(n + 1/2)` for `n = 0..N` with `ω = sqrt(k/m)/(2π)`, where
`HBAR` is the code's constant `con.Planck` = 6.62607015×10⁻³⁴ (the FULL
Planck constant, not the reduced one), and `calc_data` converts to cm⁻¹ by
dividing by 1.98630×10⁻²³. -/
theorem C3_amended_energies (k m : ℝ) (N : ℕ) (_hk : 0 < k) (_hm : 0 < m)
    (_hN : N ≤ 25) :
    (calc_harmonic_energies k m N).state_E.length = N + 1 ∧
    (∀ n, n ≤ N → (calc_harmonic_energies k m N).state_E.getD n 0 =
      HBAR * (Real.sqrt (k / m) / (2 * Real.pi)) * ((n : ℝ) + 0.5)) ∧
    ∀ ang, (calcDataCore k m ang N).states =
      (calc_harmonic_energies k m N).state_E.map fun e => e / JPERCM := by
  refine ⟨?_, ?_, fun ang => rfl⟩
  · rw [state_E_def, List.length_map, List.length_range]
  · intro n hn
    rw [state_E_def, getD_range_map _ _ _ (by omega)]

/-- Witness for the amended C3 at `k = 1`, `m = 1`, `N = 2`. -/
theorem C3_witness :
    (0 : ℝ) < 1 ∧ (0 : ℝ) < 1 ∧ 2 ≤ 25 ∧
    ((calc_harmonic_energies 1 1 2).state_E.length = 2 + 1 ∧
     (∀ n, n ≤ 2 → (calc_harmonic_energies 1 1 2).state_E.getD n 0 =
       HBAR * (Real.sqrt (1 / 1) / (2 * Real.pi)) * ((n : ℝ) + 0.5)) ∧
     ∀ ang, (calcDataCore 1 1 ang 2).states =
       (calc_harmonic_energies 1 1 2).state_E.map fun e => e / JPERCM) :=
  ⟨by norm_num, by norm_num, by norm_num,
    C3_amended_energies 1 1 2 (by norm_num) (by norm_num) (by norm_num)⟩
